import Mathlib

/-!
Verification development for the ViTextnormASR repository
(src/network/model.py and src/network/trainer.py).

Shallow embedding conventions:
* the sequence axis of a tensor is a Lean `List`; `torch.cat(..., 1)` is `++`;
* the black-box pretrained transformer is an abstract length-preserving
  function on the sequence axis;
* Python control flow (the branch on `norm_ids is None and punc_ids is None`,
  the slice `[:, prev_dim:-next_dim, :]`, positional-call arity) is embedded
  with Python semantics, including negative-index slicing and TypeError on
  arity mismatch.
-/

namespace ViTextnormASR

/-! ### Encoder topology (model.py, `BERTModel.forward` lines 73-82 and
`forward_bert` lines 66-71).

A hidden state is represented symbolically: `independent input pid` is the
result of `forward_bert(input_ids, mask_ids)` with no
`encoder_hidden_states` (pass number `pid`), and `conditioned input pid ctx`
is the result of `forward_bert(input_ids, mask_ids, ctx)`. -/

inductive HState (α : Type) where
  | independent (input : α) (passId : Nat) : HState α
  | conditioned (input : α) (passId : Nat) (ctx : HState α) : HState α
  deriving DecidableEq

/-- Whether the pass producing this hidden state received cross-attention
context (`encoder_hidden_states` in `forward_bert`). -/
def HState.usesCross {α : Type} : HState α → Bool
  | .independent _ _ => false
  | .conditioned _ _ _ => true

/-- The cross-attention context supplied to the pass, if any. -/
def HState.crossCtx {α : Type} : HState α → Option (HState α)
  | .independent _ _ => none
  | .conditioned _ _ c => some c

/-- The pass number (distinct numbers mean distinct runtime encoder calls). -/
def HState.passId {α : Type} : HState α → Nat
  | .independent _ p => p
  | .conditioned _ p _ => p

/-- Embedding of the mode branch of `BERTModel.forward` (model.py lines
74-82): which encoder passes produce `norm_bert_output` and
`punc_bert_output`, as a pair `(norm, punc)`.  An unknown mode falls through
every branch and leaves the outputs unbound, embedded as `none`. -/
def forwardEncoderTopology {α : Type} (mode : String) (input : α) :
    Option (HState α × HState α) :=
  if mode = "nojoint" then
    some (.independent input 0, .independent input 1)
  else if mode = "norm_to_punc" then
    let n : HState α := .independent input 0
    some (n, .conditioned input 1 n)
  else if mode = "punc_to_norm" then
    let p : HState α := .independent input 0
    some (.conditioned input 1 p, p)
  else
    none

/-! ### Encoder mode flag trace (model.py, `set_bert_mode` lines 58-64,
`forward_bert` line 67, and the context-block loop in `forward`
lines 84-91).

The shared encoder object carries a mutable flag: `encoder` means
`is_decoder = False, add_cross_attention = False`; `decoder` means both
`True`.  `forward_bert` sets the flag before running; the direct
`self.bert(block)` calls in the context-block loop do not touch it. -/

inductive BertMode where
  | encoder : BertMode
  | decoder : BertMode
  deriving DecidableEq

inductive CallSite where
  | focalNorm : CallSite
  | focalPunc : CallSite
  | contextNext : CallSite
  | contextPrev : CallSite
  deriving DecidableEq

/-- One runtime invocation of the shared encoder: where it happens, the
state of the mode flag while it runs, and whether cross-attention context
was supplied to it. -/
structure BertCall where
  site : CallSite
  flagAtCall : BertMode
  ctxSupplied : Bool
  deriving DecidableEq

/-- Whether a call encodes a context block (the `self.bert(block)` calls of
model.py lines 86-87). -/
def BertCall.isBlockCall (c : BertCall) : Bool :=
  c.site = CallSite.contextNext || c.site = CallSite.contextPrev

/-- Embedding of `forward_bert` (model.py lines 66-67): `set_bert_mode` is
called with `"encoder"` when no `encoder_hidden_states` is given and with
`"decoder"` otherwise, then the encoder runs under the new flag.  Returns
the recorded call and the updated flag state. -/
def forward_bert_call (site : CallSite) (hasCtx : Bool) (_st : BertMode) :
    BertCall × BertMode :=
  let st' := if hasCtx then BertMode.decoder else BertMode.encoder
  (⟨site, st', hasCtx⟩, st')

/-- Embedding of a direct `self.bert(block)` call (model.py lines 86-87):
it runs under whatever flag state is current and does not change it. -/
def rawBertCall (site : CallSite) (st : BertMode) : BertCall :=
  ⟨site, st, false⟩

/-- Embedding of the sequence of shared-encoder invocations performed by one
`BERTModel.forward` call (model.py lines 73-91): first the focal passes
selected by the mode branch, then — when both block lists are present —
one raw call per next block followed by one raw call per prev block, with
the flag state threaded through in program order starting from `st0`. -/
def forwardCallTrace (mode : String) (nNext nPrev : Nat) (hasBlocks : Bool)
    (st0 : BertMode) : List BertCall :=
  let step :=
    if mode = "nojoint" then
      let (c1, s1) := forward_bert_call .focalNorm false st0
      let (c2, s2) := forward_bert_call .focalPunc false s1
      ([c1, c2], s2)
    else if mode = "norm_to_punc" then
      let (c1, s1) := forward_bert_call .focalNorm false st0
      let (c2, s2) := forward_bert_call .focalPunc true s1
      ([c1, c2], s2)
    else if mode = "punc_to_norm" then
      let (c1, s1) := forward_bert_call .focalPunc false st0
      let (c2, s2) := forward_bert_call .focalNorm true s1
      ([c1, c2], s2)
    else
      ([], st0)
  let focalCalls := step.1
  let st1 := step.2
  if hasBlocks then
    focalCalls ++ List.replicate nNext (rawBertCall .contextNext st1)
      ++ List.replicate nPrev (rawBertCall .contextPrev st1)
  else
    focalCalls

end ViTextnormASR

namespace ViTextnormASR

/-- C1: In `nojoint` mode the norm and punc hidden states come from two
separate independent encoder passes with no cross-attention context; in
`norm_to_punc` mode the norm pass is independent and the punc pass is
conditioned on the norm hidden states; in `punc_to_norm` mode the topology
is the symmetric reverse. -/
theorem c1_encoder_topology (α : Type) (input : α) (normH puncH : HState α) :
    (forwardEncoderTopology "nojoint" input = some (normH, puncH) →
      normH.usesCross = false ∧ puncH.usesCross = false ∧
        normH.passId ≠ puncH.passId) ∧
    (forwardEncoderTopology "norm_to_punc" input = some (normH, puncH) →
      normH.usesCross = false ∧ puncH.crossCtx = some normH) ∧
    (forwardEncoderTopology "punc_to_norm" input = some (normH, puncH) →
      puncH.usesCross = false ∧ normH.crossCtx = some puncH) := by
  refine ⟨fun h => ?_, fun h => ?_, fun h => ?_⟩
  · have e : forwardEncoderTopology "nojoint" input =
        some (HState.independent input 0, HState.independent input 1) := rfl
    rw [e] at h
    simp only [Option.some.injEq, Prod.mk.injEq] at h
    obtain ⟨h1, h2⟩ := h
    subst h1; subst h2
    simp [HState.usesCross, HState.crossCtx, HState.passId]
  · have e : forwardEncoderTopology "norm_to_punc" input =
        some (HState.independent input 0,
          HState.conditioned input 1 (HState.independent input 0)) := rfl
    rw [e] at h
    simp only [Option.some.injEq, Prod.mk.injEq] at h
    obtain ⟨h1, h2⟩ := h
    subst h1; subst h2
    simp [HState.usesCross, HState.crossCtx, HState.passId]
  · have e : forwardEncoderTopology "punc_to_norm" input =
        some (HState.conditioned input 1 (HState.independent input 0),
          HState.independent input 0) := rfl
    rw [e] at h
    simp only [Option.some.injEq, Prod.mk.injEq] at h
    obtain ⟨h1, h2⟩ := h
    subst h1; subst h2
    simp [HState.usesCross, HState.crossCtx, HState.passId]

theorem c1_encoder_topology_witness :
    (HState.independent () 0).usesCross = false ∧
      (HState.independent () 1).usesCross = false ∧
      (HState.independent () 0).passId ≠ (HState.independent () 1).passId :=
  (c1_encoder_topology Unit () (HState.independent () 0)
    (HState.independent () 1)).1 rfl

/-- C5: evaluation of the embedded call trace.  With one next and one prev
context block, in modes `norm_to_punc` and `punc_to_norm` both context-block
encoder invocations run while the shared mode flag is still `decoder` (the
conditioned focal pass set it and the block loop never resets it), while in
`nojoint` mode they run with the flag at `encoder` even if it was `decoder`
beforehand.  This contradicts the claim that every context-block invocation
runs in encoder mode. -/
theorem c5_context_block_flag_trace :
    ((forwardCallTrace "norm_to_punc" 1 1 true BertMode.encoder).filter
        BertCall.isBlockCall).map BertCall.flagAtCall =
      [BertMode.decoder, BertMode.decoder] ∧
    ((forwardCallTrace "punc_to_norm" 1 1 true BertMode.encoder).filter
        BertCall.isBlockCall).map BertCall.flagAtCall =
      [BertMode.decoder, BertMode.decoder] ∧
    ((forwardCallTrace "nojoint" 1 1 true BertMode.decoder).filter
        BertCall.isBlockCall).map BertCall.flagAtCall =
      [BertMode.encoder, BertMode.encoder] := by
  decide

end ViTextnormASR

namespace ViTextnormASR

/-! ### Context-block attachment and stripping (model.py,
`BERTModel.forward` lines 84-94 and `forward_hidden_layers` lines 49-56).

The sequence axis is a `List`; `torch.cat(tensors, 1)` is list append /
join.  The Python slice `hidden_output[:, prev_dim:-next_dim, :]` is
embedded with Python index semantics: a negative bound counts from the end,
and a bound of `0` (in particular `-next_dim` when `next_dim = 0`) is the
start of the list. -/

/-- Python clamping of a (possibly negative) slice bound to `[0, n]`. -/
def pyIdx (n : Nat) (i : Int) : Nat :=
  let j : Int := if i < 0 then i + n else i
  (max 0 (min j (n : Int))).toNat

/-- Python slice `l[a:b]` on the sequence axis. -/
def pySlice {α : Type} (l : List α) (a b : Int) : List α :=
  (l.take (pyIdx l.length b)).drop (pyIdx l.length a)

/-- Embedding of `hidden_output[:, prev_dim:-next_dim, :]`
(model.py line 54). -/
def stripContext {α : Type} (l : List α) (prevDim nextDim : Nat) : List α :=
  pySlice l (prevDim : Int) (-(nextDim : Int))

/-- Embedding of lines 86-89: every block is encoded by the frozen encoder
and the per-block outputs are concatenated along the sequence axis in
original order (`torch.cat(blocks, 1)`). -/
def encodeBlocks {Tok V : Type} (enc : List Tok → List V)
    (blocks : List (List Tok)) : List V :=
  (blocks.map enc).flatten

/-- Embedding of lines 86-91: encode the next and prev blocks, then
concatenate `(prev_blocks, focal, next_blocks)` along the sequence axis.
Returns the attached tensor together with the sequence lengths
`next_blocks.shape[1]` and `prev_blocks.shape[1]` used later by
`forward_hidden_layers`. -/
def attachContextBlocks {Tok V : Type} (enc : List Tok → List V)
    (focal : List V) (nextBlocks prevBlocks : List (List Tok)) :
    List V × Nat × Nat :=
  let nextCat := encodeBlocks enc nextBlocks
  let prevCat := encodeBlocks enc prevBlocks
  (prevCat ++ focal ++ nextCat, nextCat.length, prevCat.length)

/-- Embedding of `forward_hidden_layers` (model.py lines 49-56): attention
pooling over the full (possibly context-extended) sequence, then — when
block dims `(next_dim, prev_dim)` are present — the strip slice, then the
elementwise `torch.tanh`. -/
def forward_hidden_layers {V H : Type} (pool : List V → List H)
    (tanhF : H → H) (bertOutput : List V) (dims : Option (Nat × Nat)) :
    List H :=
  let hidden := pool bertOutput
  let hidden :=
    match dims with
    | some (nextDim, prevDim) => stripContext hidden prevDim nextDim
    | none => hidden
  hidden.map tanhF

theorem pyIdx_ofNat (n a : Nat) (h : a ≤ n) : pyIdx n (a : Int) = a := by
  simp only [pyIdx]
  split
  · omega
  · omega

theorem pyIdx_negOfNat (n k : Nat) (hk : 0 < k) (hkn : k ≤ n) :
    pyIdx n (-(k : Int)) = n - k := by
  simp only [pyIdx]
  split
  · omega
  · omega

theorem stripContext_eq_drop_take {α : Type} (l : List α) (p f nx : Nat)
    (hnx : 0 < nx) (hlen : l.length = p + f + nx) :
    stripContext l p nx = (l.drop p).take f := by
  unfold stripContext pySlice
  rw [hlen, pyIdx_ofNat _ p (by omega), pyIdx_negOfNat _ nx hnx (by omega)]
  have hpf : p + f + nx - nx = p + f := by omega
  rw [hpf, ← List.take_drop]

end ViTextnormASR

namespace ViTextnormASR

/-- C2 counterexample: take the identity as both the frozen block encoder
and the pooling layer, focal hidden states `[1, 2]`, prev blocks `[[5]]`
and next blocks `[[]]` — a non-empty list holding one zero-length block.
Then `next_dim = 0`, the strip slice `[:, 1:-0, :]` is `[:, 1:0, :]` under
Python semantics, and the stripped result is empty instead of having the
focal length 2. -/
theorem c2_strip_context_counterexample :
    (forward_hidden_layers (fun l : List Nat => l) (fun v => v)
        (attachContextBlocks (fun l : List Nat => l) [1, 2] [[]] [[5]]).1
        (some (attachContextBlocks (fun l : List Nat => l) [1, 2] [[]]
          [[5]]).2)).length ≠ ([1, 2] : List Nat).length := by
  decide

/-- C2 (amended): for every length-preserving pooling function and every
block encoder, provided the concatenated next-block encoding is non-empty
(in particular whenever every next block is non-empty), attaching context
concatenates prev blocks (original order), then the focal states, then next
blocks (original order) along the sequence axis; and stripping after
pooling removes exactly `prev_len` positions from the start and `next_len`
positions from the end, so the result has the focal length.  The claim as
frozen fails when a next block has sequence length zero
(`c2_strip_context_counterexample`). -/
theorem c2_attach_strip_context {Tok V H : Type} (pool : List V → List H)
    (tanhF : H → H) (enc : List Tok → List V) (focal : List V)
    (nextBlocks prevBlocks : List (List Tok))
    (hpool : ∀ l, (pool l).length = l.length)
    (hnext : encodeBlocks enc nextBlocks ≠ []) :
    (attachContextBlocks enc focal nextBlocks prevBlocks).1 =
        encodeBlocks enc prevBlocks ++ focal ++
          encodeBlocks enc nextBlocks ∧
    forward_hidden_layers pool tanhF
        (attachContextBlocks enc focal nextBlocks prevBlocks).1
        (some (attachContextBlocks enc focal nextBlocks prevBlocks).2) =
      (((pool (attachContextBlocks enc focal nextBlocks prevBlocks).1).drop
          (encodeBlocks enc prevBlocks).length).take focal.length).map
        tanhF ∧
    (forward_hidden_layers pool tanhF
        (attachContextBlocks enc focal nextBlocks prevBlocks).1
        (some (attachContextBlocks enc focal nextBlocks
          prevBlocks).2)).length = focal.length := by
  set nxCat := encodeBlocks enc nextBlocks with hnx
  set pCat := encodeBlocks enc prevBlocks with hp
  have hA1 : (attachContextBlocks enc focal nextBlocks prevBlocks).1 =
      pCat ++ focal ++ nxCat := rfl
  have hA2 : (attachContextBlocks enc focal nextBlocks prevBlocks).2 =
      (nxCat.length, pCat.length) := rfl
  have hnxpos : 0 < nxCat.length := List.length_pos.2 hnext
  have hlen : (pool (pCat ++ focal ++ nxCat)).length =
      pCat.length + focal.length + nxCat.length := by
    rw [hpool]
    simp [List.length_append]
    omega
  have hstrip : stripContext (pool (pCat ++ focal ++ nxCat)) pCat.length
      nxCat.length =
      ((pool (pCat ++ focal ++ nxCat)).drop pCat.length).take focal.length :=
    stripContext_eq_drop_take _ _ _ _ hnxpos hlen
  refine ⟨hA1, ?_, ?_⟩
  · rw [hA1, hA2]
    show (stripContext (pool (pCat ++ focal ++ nxCat)) pCat.length
      nxCat.length).map tanhF = _
    rw [hstrip]
  · rw [hA1, hA2]
    show ((stripContext (pool (pCat ++ focal ++ nxCat)) pCat.length
      nxCat.length).map tanhF).length = focal.length
    rw [hstrip]
    rw [List.length_map, List.length_take, List.length_drop, hlen]
    omega

theorem c2_attach_strip_context_witness :
    (attachContextBlocks (fun l : List Nat => l) [1, 2] [[8, 9]] [[7]]).1 =
        encodeBlocks (fun l : List Nat => l) [[7]] ++ [1, 2] ++
          encodeBlocks (fun l : List Nat => l) [[8, 9]] ∧
    forward_hidden_layers (fun l : List Nat => l) (fun v => v)
        (attachContextBlocks (fun l : List Nat => l) [1, 2] [[8, 9]]
          [[7]]).1
        (some (attachContextBlocks (fun l : List Nat => l) [1, 2] [[8, 9]]
          [[7]]).2) =
      ((((fun l : List Nat => l)
            (attachContextBlocks (fun l : List Nat => l) [1, 2] [[8, 9]]
              [[7]]).1).drop
          (encodeBlocks (fun l : List Nat => l) [[7]]).length).take
        ([1, 2] : List Nat).length).map (fun v => v) ∧
    (forward_hidden_layers (fun l : List Nat => l) (fun v => v)
        (attachContextBlocks (fun l : List Nat => l) [1, 2] [[8, 9]]
          [[7]]).1
        (some (attachContextBlocks (fun l : List Nat => l) [1, 2] [[8, 9]]
          [[7]]).2)).length = ([1, 2] : List Nat).length :=
  c2_attach_strip_context (fun l => l) (fun v => v) (fun l => l) [1, 2]
    [[8, 9]] [[7]] (fun _ => rfl) (by decide)

end ViTextnormASR

namespace ViTextnormASR

/-! ### Return branch of `BERTModel.forward` (model.py lines 106-113). -/

inductive FwdOut (L V : Type) where
  | logits (norm punc : V) : FwdOut L V
  | losses (norm punc : L) : FwdOut L V
  deriving DecidableEq

/-- Embedding of `ids.view(-1)` on an optional label tensor: Python raises
`AttributeError` when the tensor is `None`. -/
def viewFlat {T : Type} : Option T → Except String T
  | none => Except.error "AttributeError: NoneType has no attribute view"
  | some t => Except.ok t

/-- Embedding of model.py lines 106-113: when both label tensors are `None`
return the raw unflattened logits; otherwise flatten the norm labels, then
the punc labels (`view(-1)`, which raises on `None`), and return the two
criterion losses. -/
def forwardReturn {L V T : Type} (normLogits puncLogits : V)
    (normCrit puncCrit : V → T → L) (norm_ids punc_ids : Option T) :
    Except String (FwdOut L V) :=
  if norm_ids.isNone && punc_ids.isNone then
    Except.ok (FwdOut.logits normLogits puncLogits)
  else
    match viewFlat norm_ids with
    | Except.error e => Except.error e
    | Except.ok n =>
      match viewFlat punc_ids with
      | Except.error e => Except.error e
      | Except.ok p =>
        Except.ok (FwdOut.losses (normCrit normLogits n)
          (puncCrit puncLogits p))

/-- C3 counterexample: with the norm labels supplied and the punc labels
absent, the forward pass does not return the logits pair — the else branch
runs and `punc_ids.view(-1)` raises on `None`. -/
theorem c3_single_label_counterexample :
    forwardReturn (0 : Nat) 1 (fun l t => l + t) (fun l t => l + t)
        (some (5 : Nat)) (none : Option Nat) ≠
      Except.ok (FwdOut.logits 0 1) ∧
    ∃ e, forwardReturn (0 : Nat) 1 (fun l t => l + t) (fun l t => l + t)
        (some (5 : Nat)) (none : Option Nat) = Except.error e := by
  exact ⟨by simp [forwardReturn, viewFlat], ⟨_, rfl⟩⟩

/-- C3 (amended): the forward pass returns the pair of per-task losses when
both label tensors are supplied, the pair of raw unflattened logits when
neither is supplied, and raises when exactly one of the two is supplied
(the else branch flattens both and `view(-1)` fails on the missing one). -/
theorem c3_forward_return {L V T : Type} (normLogits puncLogits : V)
    (normCrit puncCrit : V → T → L) (norm_ids punc_ids : Option T) :
    (norm_ids = none → punc_ids = none →
      forwardReturn normLogits puncLogits normCrit puncCrit norm_ids
        punc_ids = Except.ok (FwdOut.logits normLogits puncLogits)) ∧
    (∀ n p, norm_ids = some n → punc_ids = some p →
      forwardReturn normLogits puncLogits normCrit puncCrit norm_ids
        punc_ids = Except.ok (FwdOut.losses (normCrit normLogits n)
          (puncCrit puncLogits p))) ∧
    (norm_ids.isNone ≠ punc_ids.isNone →
      ∃ e, forwardReturn normLogits puncLogits normCrit puncCrit norm_ids
        punc_ids = Except.error e) := by
  refine ⟨fun h1 h2 => ?_, fun n p h1 h2 => ?_, fun h => ?_⟩
  · subst h1; subst h2; rfl
  · subst h1; subst h2; rfl
  · cases norm_ids with
    | none =>
      cases punc_ids with
      | none => simp at h
      | some p => exact ⟨_, rfl⟩
    | some n =>
      cases punc_ids with
      | none => exact ⟨_, rfl⟩
      | some p => simp at h

theorem c3_forward_return_witness :
    forwardReturn (0 : Nat) 1 (fun l t => l + t) (fun l t => l * t)
        (some (2 : Nat)) (some (3 : Nat)) =
      Except.ok (FwdOut.losses ((fun l t => l + t) 0 2)
        ((fun l t => l * t) 1 3)) :=
  (c3_forward_return 0 1 (fun l t => l + t) (fun l t => l * t)
    (some 2) (some 3)).2.1 2 3 rfl rfl

end ViTextnormASR

namespace ViTextnormASR

/-! ### Decoding heads (model.py lines 18-28 and 99-104).

The decoder selection happens at construction: `BiaffineAttention` heads
when `using_biaffine`, plain `nn.Linear` heads otherwise.  MLP outputs and
logits are modelled per position as integer vectors (`List Int`). -/

def dot (x y : List Int) : Int :=
  (List.zipWith (fun a b => a * b) x y).sum

/-- Bilinear form between two vectors, with the matrix given as rows over
the first input. -/
def bilinForm (u : List (List Int)) (x y : List Int) : Int :=
  dot x (u.map (fun row => dot row y))

/-- Modelled from the spec: `BiaffineAttention` (its module
src/network/layers.py is absent from the sources).  Per output label, a
bilinear form between the two input vectors plus a linear term over both
inputs and a bias — spec section 4.2: label scores depend jointly on both
tasks at the position. -/
structure BiaffineHead where
  labels : List (List (List Int) × List Int × List Int × Int)

def BiaffineHead.scores (h : BiaffineHead) (x y : List Int) : List Int :=
  h.labels.map (fun w =>
    bilinForm w.1 x y + dot w.2.1 x + dot w.2.2.1 y + w.2.2.2)

/-- A plain `nn.Linear(mlp_dim, n_labels)` head over the own-task vector
only (model.py lines 27-28). -/
structure LinearHead where
  labels : List (List Int × Int)

def LinearHead.scores (h : LinearHead) (x : List Int) : List Int :=
  h.labels.map (fun w => dot w.1 x + w.2)

/-- Embedding of model.py lines 99-104: with `using_biaffine` the norm
logits are `norm_decoder(norm_mlp_output, punc_mlp_output)` and the punc
logits are `punc_decoder(punc_mlp_output, norm_mlp_output)`; without it
each task applies its own linear head to its own MLP output alone. -/
def decodeStep (usingBiaffine : Bool) (normBia puncBia : BiaffineHead)
    (normLin puncLin : LinearHead) (normMlp puncMlp : List Int) :
    List Int × List Int :=
  if usingBiaffine then
    (normBia.scores normMlp puncMlp, puncBia.scores puncMlp normMlp)
  else
    (normLin.scores normMlp, puncLin.scores puncMlp)

/-- C4: with the biaffine decoder disabled, each task logits are invariant
under any change of the other task MLP output; with it enabled, there is a
perturbation of the other task MLP output that changes this task logits
(shown for both tasks at explicit weights and inputs). -/
theorem c4_biaffine_cross_dependence :
    (∀ (normBia puncBia : BiaffineHead) (normLin puncLin : LinearHead)
        (normMlp normMlp' puncMlp puncMlp' : List Int),
      (decodeStep false normBia puncBia normLin puncLin normMlp
          puncMlp).1 =
        (decodeStep false normBia puncBia normLin puncLin normMlp
          puncMlp').1 ∧
      (decodeStep false normBia puncBia normLin puncLin normMlp
          puncMlp).2 =
        (decodeStep false normBia puncBia normLin puncLin normMlp'
          puncMlp).2) ∧
    (∃ (normBia puncBia : BiaffineHead) (normLin puncLin : LinearHead)
        (normMlp normMlp' puncMlp puncMlp' : List Int),
      (decodeStep true normBia puncBia normLin puncLin normMlp
          puncMlp).1 ≠
        (decodeStep true normBia puncBia normLin puncLin normMlp
          puncMlp').1 ∧
      (decodeStep true normBia puncBia normLin puncLin normMlp
          puncMlp).2 ≠
        (decodeStep true normBia puncBia normLin puncLin normMlp'
          puncMlp).2) := by
  constructor
  · intro normBia puncBia normLin puncLin normMlp normMlp' puncMlp puncMlp'
    exact ⟨rfl, rfl⟩
  · refine ⟨⟨[([[1]], [0], [0], 0)]⟩, ⟨[([[0]], [0], [1], 0)]⟩, ⟨[]⟩, ⟨[]⟩,
      [1], [0], [0], [1], ?_, ?_⟩
    · decide
    · decide

end ViTextnormASR

namespace ViTextnormASR

/-! ### Optimizer parameter groups (trainer.py, `init_default_optimizer`
lines 16-29).

String operations follow Python: `n.startswith(pre)` and substring
containment `x in n`, both embedded on the character lists. -/

/-- Python `n.startswith(pre)`. -/
def strStarts (pre n : String) : Bool :=
  List.isPrefixOf pre.toList n.toList

def strContainsAux (sub : List Char) : List Char → Bool
  | [] => sub.isEmpty
  | a :: t => List.isPrefixOf sub (a :: t) || strContainsAux sub t

/-- Python substring containment `sub in n`. -/
def strContains (sub n : String) : Bool :=
  strContainsAux sub.toList n.toList

/-- The optimizer-options dict built for one parameter: its learning rate
and, when present, its `weight_decay` entry.  A missing entry means the
optimizer falls back to its own default. -/
structure ParamGroup where
  lr : ℚ
  weight_decay : Option ℚ
  deriving DecidableEq

/-- Embedding of the loop body of `init_default_optimizer` (trainer.py
lines 18-28) for one parameter name: parameters starting with `bert.` get
the encoder learning rate and an explicit `weight_decay` (zero when the
name contains `bias` or `LayerNorm.weight`, the configured decay
otherwise); every other parameter gets the head learning rate and no
`weight_decay` entry at all. -/
def optimizerGroupFor (n : String) (bert_lr lr bert_weight_decay : ℚ) :
    ParamGroup :=
  if strStarts "bert." n then
    if strContains "bias" n || strContains "LayerNorm.weight" n then
      ⟨bert_lr, some 0⟩
    else
      ⟨bert_lr, some bert_weight_decay⟩
  else
    ⟨lr, none⟩

/-- C6 counterexample: the head parameter `norm_mlp.weight` neither starts
with `bert.` nor contains a bias or normalization marker, so the claim
says it receives the configured non-zero decay — but its group carries no
`weight_decay` entry at all (the optimizer default applies instead). -/
theorem c6_head_decay_counterexample :
    (optimizerGroupFor "norm_mlp.weight" (1/10) (1/100)
        (1/20)).weight_decay = none ∧
    (none : Option ℚ) ≠ some (1/20) ∧ ((1 : ℚ)/20) ≠ 0 := by
  refine ⟨rfl, by simp, by norm_num⟩

/-- C6 (amended): every parameter whose name starts with `bert.` receives
the encoder learning rate and every other parameter the head learning
rate; among the `bert.`-prefixed parameters, those whose name contains
`bias` or `LayerNorm.weight` receive explicit weight decay zero and the
rest receive the configured decay; parameters outside the `bert.` prefix
receive no explicit weight-decay entry (so the claimed non-zero decay does
not reach head weights — see `c6_head_decay_counterexample`). -/
theorem c6_optimizer_param_groups (n : String) (bert_lr lr bwd : ℚ) :
    (strStarts "bert." n = true →
      (optimizerGroupFor n bert_lr lr bwd).lr = bert_lr ∧
      ((strContains "bias" n || strContains "LayerNorm.weight" n) = true →
        (optimizerGroupFor n bert_lr lr bwd).weight_decay = some 0) ∧
      ((strContains "bias" n || strContains "LayerNorm.weight" n) = false →
        (optimizerGroupFor n bert_lr lr bwd).weight_decay = some bwd)) ∧
    (strStarts "bert." n = false →
      (optimizerGroupFor n bert_lr lr bwd).lr = lr ∧
      (optimizerGroupFor n bert_lr lr bwd).weight_decay = none) := by
  constructor
  · intro hpre
    refine ⟨?_, fun hmark => ?_, fun hmark => ?_⟩
    · by_cases hm : (strContains "bias" n || strContains "LayerNorm.weight" n) = true
      · simp [optimizerGroupFor, hpre, hm]
      · simp only [Bool.not_eq_true] at hm
        simp [optimizerGroupFor, hpre, hm]
    · simp [optimizerGroupFor, hpre, hmark]
    · simp [optimizerGroupFor, hpre, hmark]
  · intro hpre
    constructor <;> simp [optimizerGroupFor, hpre]

theorem c6_optimizer_param_groups_witness :
    (optimizerGroupFor "bert.embeddings.LayerNorm.weight" (2/100) (1/100)
        (1/20)).lr = 2/100 ∧
    ((strContains "bias" "bert.embeddings.LayerNorm.weight" ||
        strContains "LayerNorm.weight"
          "bert.embeddings.LayerNorm.weight") = true →
      (optimizerGroupFor "bert.embeddings.LayerNorm.weight" (2/100) (1/100)
          (1/20)).weight_decay = some 0) ∧
    ((strContains "bias" "bert.embeddings.LayerNorm.weight" ||
        strContains "LayerNorm.weight"
          "bert.embeddings.LayerNorm.weight") = false →
      (optimizerGroupFor "bert.embeddings.LayerNorm.weight" (2/100) (1/100)
          (1/20)).weight_decay = some (1/20)) :=
  (c6_optimizer_param_groups "bert.embeddings.LayerNorm.weight" (2/100)
    (1/100) (1/20)).1 (by decide)

end ViTextnormASR

namespace ViTextnormASR

/-! ### Loss selection and encoder-mode mapping (trainer.py lines 73 and
91-96). -/

/-- Embedding of trainer.py line 73: the mode handed to the model is
`nojoint` when the training mode is `norm_only` or `punc_only`, and the
training mode itself otherwise. -/
def effectiveEncoderMode (model_mode : String) : String :=
  if model_mode = "norm_only" || model_mode = "punc_only" then "nojoint"
  else model_mode

/-- Embedding of trainer.py lines 91-96: the loss handed to backward. -/
def selectLoss (model_mode : String) (norm_loss punc_loss : ℚ) : ℚ :=
  if model_mode = "norm_only" then norm_loss
  else if model_mode = "punc_only" then punc_loss
  else norm_loss + punc_loss

/-- C7: the backpropagated loss is the norm loss alone for `norm_only`,
the punc loss alone for `punc_only`, and the sum for every other mode; and
the two single-task modes run the model with the `nojoint` encoding
topology. -/
theorem c7_loss_selection (norm_loss punc_loss : ℚ) (m : String) :
    selectLoss "norm_only" norm_loss punc_loss = norm_loss ∧
    selectLoss "punc_only" norm_loss punc_loss = punc_loss ∧
    (m ≠ "norm_only" → m ≠ "punc_only" →
      selectLoss m norm_loss punc_loss = norm_loss + punc_loss) ∧
    effectiveEncoderMode "norm_only" = "nojoint" ∧
    effectiveEncoderMode "punc_only" = "nojoint" := by
  refine ⟨by simp [selectLoss], by simp [selectLoss], fun h1 h2 => ?_,
    by simp [effectiveEncoderMode], by simp [effectiveEncoderMode]⟩
  simp [selectLoss, h1, h2]

theorem c7_loss_selection_witness :
    selectLoss "norm_only" (3/10) (2/5) = 3/10 ∧
    selectLoss "punc_only" (3/10) (2/5) = 2/5 ∧
    selectLoss "norm_to_punc" (3/10) (2/5) = 3/10 + 2/5 ∧
    effectiveEncoderMode "norm_only" = "nojoint" ∧
    effectiveEncoderMode "punc_only" = "nojoint" := by
  have h := c7_loss_selection (3/10) (2/5) "norm_to_punc"
  exact ⟨h.1, h.2.1, h.2.2.1 (by decide) (by decide), h.2.2.2.1,
    h.2.2.2.2⟩

end ViTextnormASR

namespace ViTextnormASR

/-! ### Evaluation label filtering (trainer.py, `evaluate` lines 37-60). -/

/-- Embedding of the punctuation post-processing (trainer.py lines 57-58):
prefix `B-` unless the label is `O`. -/
def bPrefix (s : String) : String :=
  if ¬ (s = "O") then "B-" ++ s else s

/-- Embedding of the norm filtering loop (trainer.py lines 45-50): walk the
zipped (predicted id, gold id) pairs in order and, whenever the gold id is
not the ignore sentinel -100, append the two mapped label strings to the
predicted and gold output sequences. -/
def evalNormLoop (dict : Int → String) :
    List (Int × Int) → List String × List String
  | [] => ([], [])
  | pg :: rest =>
      let out := evalNormLoop dict rest
      if pg.2 ≠ -100 then (dict pg.1 :: out.1, dict pg.2 :: out.2)
      else out

/-- Embedding of the punc filtering loop (trainer.py lines 53-60): same
walk, with the `B-` rewrite applied to both the predicted and the gold
label. -/
def evalPuncLoop (dict : Int → String) :
    List (Int × Int) → List String × List String
  | [] => ([], [])
  | pg :: rest =>
      let out := evalPuncLoop dict rest
      if pg.2 ≠ -100 then
        (bPrefix (dict pg.1) :: out.1, bPrefix (dict pg.2) :: out.2)
      else out

/-- C8: the sequences handed to the scoring collaborator are exactly the
positions whose gold id differs from the sentinel -100, in order, mapped
through the vocabulary — so sentinel positions appear in neither sequence
and all others appear in both; and the punc `B-` rewrite is applied by the
same function to the predicted side and the gold side. -/
theorem c8_eval_filtering (dict : Int → String)
    (pairs : List (Int × Int)) :
    evalNormLoop dict pairs =
      ((pairs.filter (fun pg => pg.2 != -100)).map (fun pg => dict pg.1),
       (pairs.filter (fun pg => pg.2 != -100)).map (fun pg => dict pg.2)) ∧
    evalPuncLoop dict pairs =
      ((pairs.filter (fun pg => pg.2 != -100)).map
          (fun pg => bPrefix (dict pg.1)),
       (pairs.filter (fun pg => pg.2 != -100)).map
          (fun pg => bPrefix (dict pg.2))) := by
  induction pairs with
  | nil => exact ⟨rfl, rfl⟩
  | cons pg rest ih =>
    obtain ⟨ih1, ih2⟩ := ih
    by_cases h : pg.2 = -100
    · constructor
      · simp [evalNormLoop, h, ih1]
      · simp [evalPuncLoop, h, ih2]
    · constructor
      · simp [evalNormLoop, h, ih1, List.filter_cons]
      · simp [evalPuncLoop, h, ih2, List.filter_cons]

end ViTextnormASR

namespace ViTextnormASR

/-! ### Best-F1 tracking (trainer.py lines 81 and 149-159).

`best_f1_scores` starts at 0 per task; after every epoch the dev F1 is
compared with `>` and, on strict improvement, the best is overwritten and
one "Best F1" line is printed. -/

/-- One epoch of the tracker (trainer.py lines 150-152): the new tracked
best and whether a new-best event fired. -/
def bestStep (best f1 : ℚ) : ℚ × Bool :=
  if f1 > best then (f1, true) else (best, false)

/-- The tracker folded over a dev F1 sequence: the per-epoch tracked-best
values and the total number of new-best events. -/
def bestTrack (best : ℚ) : List ℚ → List ℚ × Nat
  | [] => ([], 0)
  | f1 :: rest =>
      let s := bestStep best f1
      let out := bestTrack s.1 rest
      (s.1 :: out.1, (if s.2 then 1 else 0) + out.2)

/-- C9 counterexample: the tracked best starts at 0 (trainer.py line 81),
so on the dev F1 sequence [0.5, 0.5, 0.6, 0.55, 0.7] the first 0.5 already
fires a new-best event and the run fires three events, not the two the
claim states. -/
theorem c9_event_count_counterexample :
    (bestTrack 0 [0.5, 0.5, 0.6, 0.55, 0.7]).2 = 3 ∧ (3 : Nat) ≠ 2 := by
  norm_num [bestTrack, bestStep]

/-- C9 (amended): the tracker updates only on strictly greater dev F1
(ties and decreases leave the best unchanged and fire no event), and from
the initial tracked value 0 the dev F1 sequence [0.5, 0.5, 0.6, 0.55, 0.7]
yields the tracked-best sequence [0.5, 0.5, 0.6, 0.6, 0.7] with exactly
three new-best events — the first 0.5 also strictly improves on 0. -/
theorem c9_best_tracking (best f1 : ℚ) :
    (f1 > best → bestStep best f1 = (f1, true)) ∧
    (f1 ≤ best → bestStep best f1 = (best, false)) ∧
    bestTrack 0 [0.5, 0.5, 0.6, 0.55, 0.7] =
      ([0.5, 0.5, 0.6, 0.6, 0.7], 3) := by
  refine ⟨fun h => ?_, fun h => ?_, ?_⟩
  · simp [bestStep, h]
  · simp [bestStep, not_lt.2 h]
  · norm_num [bestTrack, bestStep]

theorem c9_best_tracking_witness :
    bestStep (1/2) (1/2) = (1/2, false) ∧
    bestTrack 0 [0.5, 0.5, 0.6, 0.55, 0.7] =
      ([0.5, 0.5, 0.6, 0.6, 0.7], 3) :=
  ⟨(c9_best_tracking (1/2) (1/2)).2.1 le_rfl,
   (c9_best_tracking 0 0).2.2⟩

end ViTextnormASR

namespace ViTextnormASR

/-! ### Model-construction arity at the training entry point
(trainer.py line 74 against model.py lines 33-36). -/

/-- Python positional-call semantics for a function with a fixed number of
parameters, no defaults and no varargs: the call runs exactly when the
argument count matches, and raises `TypeError` otherwise. -/
def callPositional {α β : Type} (paramCount : Nat) (args : List α)
    (k : List α → β) : Except String β :=
  if args.length = paramCount then Except.ok (k args)
  else Except.error "TypeError: wrong number of positional arguments"

/-- Parameter count of `BERTModel.from_config` (model.py lines 33-36):
model_config, norm_labels, punc_labels, hidden_dim, model_mode. -/
def fromConfigParamCount : Nat := 5

/-- Positional argument count at the construction call in `train`
(trainer.py line 74): model_config, data.tokenizer, data.norm_labels,
data.punc_labels, data.hidden_dim, mode, biaffine. -/
def trainFromConfigArgCount : Nat := 7

/-- Embedding of the prefix of `train` (trainer.py lines 67-96) deciding
whether training is ever reached: the model is constructed before the
epoch loop, so when the construction call raises no training step runs. -/
def trainStepsExecuted {α β : Type} (args : List α) (build : List α → β)
    (stepsPerRun : Nat) : Except String Nat :=
  match callPositional fromConfigParamCount args build with
  | Except.error e => Except.error e
  | Except.ok _ => Except.ok stepsPerRun

/-- C10: `train` passes seven positional arguments to
`BERTModel.from_config`, which accepts five, so for every argument list of
that shape the construction raises and no training step is ever reached.
-/
theorem c10_from_config_arity (α β : Type) (args : List α)
    (build : List α → β) (steps : Nat)
    (h : args.length = trainFromConfigArgCount) :
    (∃ e, callPositional fromConfigParamCount args build =
      Except.error e) ∧
    (∃ e, trainStepsExecuted args build steps = Except.error e) := by
  have hne : ¬ (args.length = fromConfigParamCount) := by
    rw [h]; decide
  have hc : callPositional fromConfigParamCount args build =
      Except.error "TypeError: wrong number of positional arguments" := by
    unfold callPositional
    rw [if_neg hne]
  constructor
  · exact ⟨_, hc⟩
  · refine ⟨"TypeError: wrong number of positional arguments", ?_⟩
    unfold trainStepsExecuted
    rw [hc]

theorem c10_from_config_arity_witness :
    (∃ e, callPositional fromConfigParamCount (List.replicate 7 ())
      (fun _ => ()) = Except.error e) ∧
    (∃ e, trainStepsExecuted (List.replicate 7 ()) (fun _ => ()) 100 =
      Except.error e) :=
  c10_from_config_arity Unit Unit (List.replicate 7 ()) (fun _ => ()) 100
    (by decide)

end ViTextnormASR
